import Mathlib

/-!
Formal model of the metric dispatch and span-QA / similarity evaluation code in
`farm/evaluation/metrics.py`.

Conventions of the embedding:

* Character/token offsets are natural numbers; model confidence scores are
  rationals (the Python floats carry exact decimal values in every case the
  statements below touch).
* A prediction for one document is, as in the source, a list whose first
  element is the best-first ranked candidate list: `preds[doc][0]` is the
  ranked `CandidateSet` and `preds[doc][0][0]` its best candidate.
* Python list indexing `xs[i]` is rendered as `List.getD xs i default`;
  theorems that rely on an index being in range carry the corresponding
  well-formedness hypothesis (the data model guarantees each document has a
  nonempty candidate set).
* Python's indexed loops `for i in range(len(preds)): ... labels[i] ...` are
  rendered as folds/maps over `preds.zip labels`; this coincides with the
  source whenever `len(preds) == len(labels)` (the alignment precondition the
  dispatcher asserts).
* `np.mean` of an empty list is NaN in numpy; it is modelled as `Option ℚ`
  with `none` standing for NaN.
* Fatal Python exceptions of the dispatcher (`AssertionError` from the shape
  assert, `KeyError` for an unknown metric, `AttributeError` for an unmapped
  report type) are modelled with `Except`.
-/

/-- One predicted answer span: `start`/`end` inclusive offsets and a model
confidence score (`QACandidate` objects of the source). -/
structure QACandidate where
  offset_answer_start : ℕ
  offset_answer_end : ℕ
  score : ℚ
deriving DecidableEq

/-- Default used to render Python indexing totally; theorems needing an index
in range carry explicit hypotheses instead of relying on this value. -/
def defaultCandidate : QACandidate := ⟨0, 0, 0⟩

/-- A prediction object for one document: `p[0]` is the ranked candidate list. -/
abbrev QAPred := List (List QACandidate)

/-- The best candidate of a document prediction, `preds[doc_idx][0][0]`. -/
def bestCand (p : QAPred) : QACandidate :=
  (p.getD 0 []).getD 0 defaultCandidate

/-- Model of `np.mean` over a list of floats: NaN (`none`) on the empty list,
otherwise the arithmetic mean. -/
def npMean (xs : List ℚ) : Option ℚ :=
  if xs.isEmpty then none else some (xs.sum / (xs.length : ℚ))

/-- Source `squad_f1_single(pred, label, pred_idx)`: overlap F1 of the span
`pred[pred_idx]` against one gold `(start, end)` pair.  The no-answer branch
fires when either span has `start + end == 0`; otherwise the overlap of the
inclusive ranges is counted and the harmonic mean of precision and recall is
returned (0 on empty overlap). -/
def squad_f1_single (pred : List QACandidate) (label : ℕ × ℕ) (pred_idx : ℕ) : ℚ :=
  let label_start := label.1
  let label_end := label.2
  let span := pred.getD pred_idx defaultCandidate
  let pred_start := span.offset_answer_start
  let pred_end := span.offset_answer_end
  if pred_start + pred_end = 0 ∨ label_start + label_end = 0 then
    if pred_start = label_start then 1 else 0
  else
    let pred_span := List.range' pred_start (pred_end + 1 - pred_start)
    let label_span := List.range' label_start (label_end + 1 - label_start)
    let n_overlap := (pred_span.filter (fun x => x ∈ label_span)).length
    if n_overlap = 0 then 0
    else
      let precision : ℚ := (n_overlap : ℚ) / (pred_span.length : ℚ)
      let recall_val : ℚ := (n_overlap : ℚ) / (label_span.length : ℚ)
      (2 * precision * recall_val) / (precision + recall_val)

/-- Size of the intersection of the inclusive integer ranges
`[ps, pe]` and `[ls, le]`, written arithmetically (the spec's notion of span
overlap); related to the source's list-based count by `overlap_length_eq`. -/
def spanOverlap (ps pe ls le : ℕ) : ℕ :=
  min pe le + 1 - max ps ls

/-- The spec's F1 formula: harmonic mean of `precision = o / np` and
`recall = o / nl` for overlap size `o` and span sizes `np`, `nl`. -/
def f1Formula (o np nl : ℕ) : ℚ :=
  (2 * ((o : ℚ) / (np : ℚ)) * ((o : ℚ) / (nl : ℚ))) /
    (((o : ℚ) / (np : ℚ)) + ((o : ℚ) / (nl : ℚ)))

/-- Source `squad_EM`: fraction of documents whose best candidate's
`(start, end)` pair is literally contained in the document's gold span list;
0 for an empty batch. -/
def squad_EM (preds : List QAPred) (labels : List (List (ℕ × ℕ))) : ℚ :=
  let n_docs := preds.length
  let n_correct := (preds.zip labels).countP fun pl =>
    decide (((bestCand pl.1).offset_answer_start, (bestCand pl.1).offset_answer_end) ∈ pl.2)
  if n_docs = 0 then 0 else (n_correct : ℚ) / (n_docs : ℚ)

/-- Source `squad_EM_start`: for each document it builds
`curr_label = [label[1] for label in curr_labels]` — the SECOND tuple
component, i.e. the gold END offsets — and counts the document as correct when
the best candidate's start offset occurs in that list; 0 for an empty batch.
(The function's own docstring says it compares against gold start offsets.) -/
def squad_EM_start (preds : List QAPred) (labels : List (List (ℕ × ℕ))) : ℚ :=
  let n_docs := preds.length
  let n_correct := (preds.zip labels).countP fun pl =>
    decide ((bestCand pl.1).offset_answer_start ∈ pl.2.map (fun label => label.2))
  if n_docs = 0 then 0 else (n_correct : ℚ) / (n_docs : ℚ)

/-- Start-only EM as the spec describes it: the best candidate's start offset
is compared against the gold START offsets (`label[0]`).  Kept alongside the
source rendering `squad_EM_start` to exhibit their divergence. -/
def squad_EM_start_specModel (preds : List QAPred) (labels : List (List (ℕ × ℕ))) : ℚ :=
  let n_docs := preds.length
  let n_correct := (preds.zip labels).countP fun pl =>
    decide ((bestCand pl.1).offset_answer_start ∈ pl.2.map (fun label => label.1))
  if n_docs = 0 then 0 else (n_correct : ℚ) / (n_docs : ℚ)

/-- Source `squad_f1`: mean over documents of the best candidate's maximal
overlap F1 against the document's gold spans.  The mean is `np.mean`, hence
`none` (NaN) on an empty batch; the per-document maximum is Python
`max([...])`, rendered as `foldr max 0` (all F1 values are nonnegative, and the
source raises on an empty gold list, which theorems exclude by hypothesis). -/
def squad_f1 (preds : List QAPred) (labels : List (List (ℕ × ℕ))) : Option ℚ :=
  let f1_scores := (preds.zip labels).map fun pl =>
    (pl.2.map fun label => squad_f1_single (pl.1.getD 0 []) label 0).foldr max 0
  npMean f1_scores

/-- Source `confidence`: mean of the best candidate's score across documents,
0 on an empty batch (explicitly guarded in the source). -/
def confidence (preds : List QAPred) : ℚ :=
  let conf := preds.foldl (fun conf pred => conf + (bestCand pred).score) 0
  if preds.length = 0 then 0 else conf / (preds.length : ℚ)

/-- Hit test of `top_n_accuracy` for one document: scanning the ranked
candidate list `preds[i][0]`, some candidate index achieves nonzero maximal
overlap F1 against some gold span (the source's early `break` makes the loop
equivalent to this existential). -/
def top_n_hit (p : QAPred) (ls : List (ℕ × ℕ)) : Bool :=
  let current_preds := p.getD 0 []
  (List.range current_preds.length).any fun idx =>
    decide (((ls.map fun label => squad_f1_single current_preds label idx).foldr max 0) ≠ 0)

/-- Source `top_n_accuracy`: fraction of documents with a `top_n_hit`;
`np.mean` of the 0/1 list, hence `none` (NaN) on an empty batch. -/
def top_n_accuracy (preds : List QAPred) (labels : List (List (ℕ × ℕ))) : Option ℚ :=
  let answer_in_top_n := (preds.zip labels).map fun pl =>
    if top_n_hit pl.1 pl.2 then (1 : ℚ) else 0
  npMean answer_in_top_n

/-- Binning rule of `metrics_per_bin`: a score of exactly 1.0 is clamped to
0.9999, then the bin is `int(score * 10)` (truncation, which agrees with the
floor for the nonnegative scores the claims consider). -/
def binIndex (s : ℚ) : ℕ :=
  (Int.floor ((if s = 1 then (0.9999 : ℚ) else s) * 10)).toNat

/-- The `count_per_bin` accumulator of `metrics_per_bin`: starting from ten
zeros, each document increments the cell indexed by its best candidate's bin. -/
def count_per_bin (preds : List QAPred) (labels : List (List (ℕ × ℕ))) : List ℕ :=
  (preds.zip labels).foldl
    (fun acc pl =>
      acc.set (binIndex (bestCand pl.1).score) (acc.getD (binIndex (bestCand pl.1).score) 0 + 1))
    (List.replicate 10 0)

/-- The documents landing in bin `i` (the source appends each `(pred, label)`
pair, in batch order, to `pred_bins[bin]` / `label_bins[bin]`). -/
def docs_in_bin (preds : List QAPred) (labels : List (List (ℕ × ℕ))) (i : ℕ) :
    List (QAPred × List (ℕ × ℕ)) :=
  (preds.zip labels).filter fun pl => binIndex (bestCand pl.1).score = i

/-- Source `metrics_per_bin`: per-bin start-only EM, per-bin mean confidence
and per-bin document counts; bins are 0–9 and bin 0 of EM/confidence is left
at its initial 0 (the source's loop runs over `range(1, 10)`). -/
def metrics_per_bin (preds : List QAPred) (labels : List (List (ℕ × ℕ))) :
    List ℚ × List ℚ × List ℕ :=
  let em_per_bin := (List.range 10).map fun i =>
    if i = 0 then 0
    else squad_EM_start ((docs_in_bin preds labels i).map Prod.fst)
      ((docs_in_bin preds labels i).map Prod.snd)
  let confidence_per_bin := (List.range 10).map fun i =>
    if i = 0 then 0 else confidence ((docs_in_bin preds labels i).map Prod.fst)
  (em_per_bin, confidence_per_bin, count_per_bin preds labels)

/-- Result bundle of the aggregate `squad` metric. -/
structure SquadResult where
  EM : ℚ
  f1 : Option ℚ
  top_n_accuracy : Option ℚ
  confidence : ℚ
  em_per_bin : List ℚ
  confidence_per_bin : List ℚ
  count_per_bin : List ℕ
deriving DecidableEq

/-- Source `squad`: bundles EM, document F1, top-N accuracy, mean confidence
and the three per-bin arrays. -/
def squad (preds : List QAPred) (labels : List (List (ℕ × ℕ))) : SquadResult :=
  let bins := metrics_per_bin preds labels
  { EM := squad_EM preds labels
    f1 := squad_f1 preds labels
    top_n_accuracy := top_n_accuracy preds labels
    confidence := confidence preds
    em_per_bin := bins.1
    confidence_per_bin := bins.2.1
    count_per_bin := bins.2.2 }

/-- Positions of the value 1 in a label vector, `(y == 1).nonzero()[0]`. -/
def nonzeroOne (y : List ℕ) : List ℕ :=
  (List.range y.length).filter fun j => y.getD j 0 = 1

/-- Positions of the value `v` in a ranking vector, `(preds[i] == v).nonzero()[0]`. -/
def matchIdx (xs : List ℕ) (v : ℕ) : List ℕ :=
  (List.range xs.length).filter fun j => xs.getD j 0 = v

/-- Model of numpy `.item()` on a position array: defined exactly when the
array has a single element (otherwise the source raises). -/
def itemOfMatches (xs : List ℕ) : Option ℕ :=
  match xs with
  | [g] => some g
  | _ => none

/-- The accumulation loop of `text_similarity_avg_ranks`: walking the flat
positive-index list with the running query counter `i`, it adds up the unique
position of each gold index inside `preds[i]`; `none` models the IndexError /
ValueError the source raises when `preds[i]` is missing or the gold index does
not occur exactly once. -/
def ranksLoop (preds : List (List ℕ)) : ℕ → List ℕ → Option ℕ
  | _, [] => some 0
  | i, idx :: rest =>
    if i < preds.length then
      match itemOfMatches (matchIdx (preds.getD i []) idx) with
      | some g =>
        match ranksLoop preds (i + 1) rest with
        | some s => some (g + s)
        | none => none
      | none => none
    else none

/-- Source `text_similarity_avg_ranks`: flattens the per-query positive label
positions, accumulates the rank of each gold index in the corresponding
ranking, and divides by the number of queries (`none` models the
ZeroDivisionError on an empty batch and the lookup failures of the loop). -/
def text_similarity_avg_ranks (preds labels : List (List ℕ)) : Option ℚ :=
  let positive_idx_per_question := labels.foldl (fun x y => x ++ nonzeroOne y) []
  match ranksLoop preds 0 positive_idx_per_question with
  | some rank => if preds.length = 0 then none else some ((rank : ℚ) / (preds.length : ℚ))
  | none => none

/-- Errors of the metric dispatcher: the length assert (`AssertionError`,
the spec's ShapeMismatch) and the final `raise KeyError(metric)` carrying the
unknown name. -/
inductive MetricError where
  | shapeMismatch : MetricError
  | unknownMetric : String → MetricError
deriving DecidableEq

/-- The bodies behind the built-in branches of `compute_metrics`.  The scalar
metrics delegate to external statistical libraries (sklearn / scipy / seqeval
— out of the repository per the spec), so the dispatcher is parameterised by
their computations; the dispatch logic itself is what the claims concern. -/
structure Builtins (V R : Type) where
  mcc : List V → List V → R
  acc : List V → List V → R
  acc_f1 : List V → List V → R
  pear_spear : List V → List V → R
  seq_f1 : List V → List V → R
  f1_macro : List V → List V → R
  squad : List V → List V → R
  mse : List V → List V → R
  r2 : List V → List V → R
  top_n_accuracy : List V → List V → R
  text_similarity_metric : List V → List V → R

/-- The module-level `registered_metrics = {}` dictionary, modelled as a
partial map from names to metric functions; initially empty. -/
def empty_registered_metrics {V R : Type} : String → Option (List V → List V → R) :=
  fun _ => none

/-- Source `register_metrics(name, implementation)`: inserts or overwrites the
entry for `name` (last writer wins). -/
def register_metrics {V R : Type} (name : String) (implementation : List V → List V → R)
    (registered : String → Option (List V → List V → R)) :
    String → Option (List V → List V → R) :=
  fun n => if n = name then some implementation else registered n

/-- Source `compute_metrics`: asserts the shape precondition, then resolves
the metric name through the fixed chain of built-in names (in source order,
with each branch's argument order preserved), then the registry, and finally
fails with `KeyError(metric)`. -/
def compute_metrics {V R : Type} (B : Builtins V R)
    (registered_metrics : String → Option (List V → List V → R))
    (metric : String) (preds labels : List V) : Except MetricError R :=
  if preds.length = labels.length then
    if metric = "mcc" then .ok (B.mcc labels preds)
    else if metric = "acc" then .ok (B.acc preds labels)
    else if metric = "acc_f1" then .ok (B.acc_f1 preds labels)
    else if metric = "pear_spear" then .ok (B.pear_spear preds labels)
    else if metric = "seq_f1" then .ok (B.seq_f1 labels preds)
    else if metric = "f1_macro" then .ok (B.f1_macro preds labels)
    else if metric = "squad" then .ok (B.squad preds labels)
    else if metric = "mse" then .ok (B.mse preds labels)
    else if metric = "r2" then .ok (B.r2 preds labels)
    else if metric = "top_n_accuracy" then .ok (B.top_n_accuracy preds labels)
    else if metric = "text_similarity_metric" then .ok (B.text_similarity_metric preds labels)
    else
      match registered_metrics metric with
      | some metric_func => .ok (metric_func preds labels)
      | none => .error (.unknownMetric metric)
  else .error .shapeMismatch

/-- The fixed set of built-in metric names recognised by `compute_metrics`. -/
def builtin_metric_names : List String :=
  ["mcc", "acc", "acc_f1", "pear_spear", "seq_f1", "f1_macro", "squad",
   "mse", "r2", "top_n_accuracy", "text_similarity_metric"]

/-- Prediction/label data as passed to a report function: either the original
per-document vectors or the flattened binary sequence produced by the
text-similarity reshape. -/
inductive ReportData where
  | nested : List (List ℤ) → ReportData
  | flat : List ℤ → ReportData
deriving DecidableEq

/-- The `labels=` keyword of the per-sequence report call: either the full id
range (multilabel / text-similarity subtypes) or the label vocabulary itself. -/
inductive LabelsArg where
  | ids : List ℕ → LabelsArg
  | names : List String → LabelsArg
deriving DecidableEq

/-- A report function: `(y_true, y_pred)` plus the optional
`(digits, labels, target_names)` keyword triple of the per-sequence call; the
result is a printable object (a string or a structured value). -/
def ReportFn (R : Type) :=
  ReportData → ReportData → Option (ℕ × LabelsArg × List String) → Sum String R

/-- The external report routines (seqeval / sklearn), parameters of the
embedding as they live outside the repository. -/
structure ReportLib (R : Type) where
  token_classification_report : ReportFn R
  classification_report : ReportFn R
  r2_score : ReportFn R

/-- The prediction-head descriptor fields `compute_report_metrics` reads. -/
structure PredictionHead where
  ph_output_type : String
  model_type : String
  label_list : List String

/-- The `AttributeError` raised for an unmapped `ph_output_type` (the spec's
UnsupportedReportType), carrying the unmapped type name. -/
inductive ReportError where
  | unsupportedType : String → ReportError
deriving DecidableEq

/-- The one-hot row `[0]*y[0] + [1] + [0]*(len(y)-y[0]-1)` of the
text-similarity reshape. -/
def onehot_row (y : List ℤ) : List ℤ :=
  List.replicate (y.getD 0 0).toNat 0 ++ [1] ++
    List.replicate ((y.length : ℤ) - y.getD 0 0 - 1).toNat 0

/-- The `report_fn` resolution chain of `compute_report_metrics` (source lines
109–121): the registered-reports dictionary is consulted first, then the four
built-in output types; `none` means the final `raise AttributeError`. -/
def resolve_report_fn {R : Type} (lib : ReportLib R)
    (registered_reports : String → Option (ReportFn R)) (t : String) :
    Option (ReportFn R) :=
  match registered_reports t with
  | some report_fn => some report_fn
  | none =>
    if t = "per_token" then some lib.token_classification_report
    else if t = "per_sequence" then some lib.classification_report
    else if t = "per_token_squad" then some (fun _ _ _ => Sum.inl "Not Implemented")
    else if t = "per_sequence_continuous" then some lib.r2_score
    else none

/-- Source `compute_report_metrics`: resolves the report function
(registry first), then — only for the `per_sequence` output type — reshapes
the inputs according to the head's model type and passes the full label set,
and finally calls the function as `report_fn(labels, preds, ...)`. -/
def compute_report_metrics {R : Type} (lib : ReportLib R)
    (registered_reports : String → Option (ReportFn R)) (head : PredictionHead)
    (preds labels : List (List ℤ)) : Except ReportError (Sum String R) :=
  match resolve_report_fn lib registered_reports head.ph_output_type with
  | none => .error (.unsupportedType head.ph_output_type)
  | some report_fn =>
    if head.ph_output_type = "per_sequence" then
      if head.model_type = "multilabel_text_classification" then
        .ok (report_fn (ReportData.nested labels) (ReportData.nested preds)
          (some (4, LabelsArg.ids (List.range head.label_list.length), head.label_list)))
      else if head.model_type = "text_similarity" then
        .ok (report_fn
          (ReportData.flat (labels.foldl (fun x y => x ++ y) []))
          (ReportData.flat (preds.foldl (fun x y => x ++ onehot_row y) []))
          (some (4, LabelsArg.ids (List.range head.label_list.length), head.label_list)))
      else
        .ok (report_fn (ReportData.nested labels) (ReportData.nested preds)
          (some (4, LabelsArg.names head.label_list, head.label_list)))
    else .ok (report_fn (ReportData.nested labels) (ReportData.nested preds) none)

/-- Concrete instantiation of the built-in metric bodies used by witness and
counterexample statements (the dispatch logic does not depend on the bodies). -/
def demoBuiltins : Builtins ℕ ℚ where
  mcc := fun _ _ => 0
  acc := fun _ _ => 0
  acc_f1 := fun _ _ => 0
  pear_spear := fun _ _ => 0
  seq_f1 := fun _ _ => 0
  f1_macro := fun _ _ => 0
  squad := fun _ _ => 0
  mse := fun _ _ => 0
  r2 := fun _ _ => 0
  top_n_accuracy := fun _ _ => 0
  text_similarity_metric := fun _ _ => 0

/-- Concrete instantiation of the external report routines for witness
statements. -/
def demoReportLib : ReportLib ℚ where
  token_classification_report := fun _ _ _ => Sum.inr 0
  classification_report := fun _ _ _ => Sum.inr 0
  r2_score := fun _ _ _ => Sum.inr 0

/-- A custom report function used by witness statements. -/
def demoCustomReport : ReportFn ℚ := fun _ _ _ => Sum.inr 5

/-- A registered-reports table holding one custom function under the built-in
output type `per_token`, used by witness statements. -/
def demoRegisteredReports : String → Option (ReportFn ℚ) :=
  fun t => if t = "per_token" then some demoCustomReport else none

/-- A registered-reports table overriding the built-in `per_sequence` report,
used by witness statements. -/
def demoPerSequenceReports : String → Option (ReportFn ℚ) :=
  fun t => if t = "per_sequence" then some demoCustomReport else none

/-! ### Helper lemmas -/

/-- Counting the members of an integer interval inside `List.range'`. -/
lemma countP_range'_interval (b c : ℕ) :
    ∀ (m a : ℕ), (List.range' a m).countP (fun x => decide (b ≤ x ∧ x < c))
      = min (a + m) c - max a b := by
  intro m
  induction m with
  | zero =>
    intro a
    have hnil : List.range' a 0 = [] := rfl
    rw [hnil, List.countP_nil]
    omega
  | succ k ih =>
    intro a
    rw [List.range'_succ, List.countP_cons, ih]
    by_cases h : b ≤ a ∧ a < c
    · rw [if_pos (decide_eq_true h)]
      omega
    · rw [if_neg (by simpa using h)]
      omega

/-- The source's list-based overlap count agrees with the arithmetic
intersection size `spanOverlap` of the two inclusive ranges. -/
lemma overlap_length_eq (ps pe ls le : ℕ) :
    ((List.range' ps (pe + 1 - ps)).filter
      (fun x => x ∈ List.range' ls (le + 1 - ls))).length = spanOverlap ps pe ls le := by
  rw [← List.countP_eq_length_filter]
  have hcongr : ∀ x ∈ List.range' ps (pe + 1 - ps),
      decide (x ∈ List.range' ls (le + 1 - ls)) = true
        ↔ (fun x => decide (ls ≤ x ∧ x < ls + (le + 1 - ls))) x = true := by
    intro x _
    simp [List.mem_range'_1]
  rw [List.countP_congr hcongr, countP_range'_interval]
  simp only [spanOverlap]
  omega

/-- Closed-form evaluation of `squad_f1_single` in terms of the candidate
sitting at the consulted index. -/
lemma squad_f1_single_eval (L : List QACandidate) (ls le idx ps pe : ℕ) (sc : ℚ)
    (h : L.getD idx defaultCandidate = ⟨ps, pe, sc⟩) :
    squad_f1_single L (ls, le) idx =
      if ps + pe = 0 ∨ ls + le = 0 then (if ps = ls then 1 else 0)
      else if spanOverlap ps pe ls le = 0 then 0
      else f1Formula (spanOverlap ps pe ls le) (pe + 1 - ps) (le + 1 - ls) := by
  unfold squad_f1_single
  rw [h]
  simp only [overlap_length_eq, List.length_range', f1Formula]

/-- Harmonic mean of two full scores is 1. -/
lemma f1Formula_self (k : ℕ) (hk : k ≠ 0) : f1Formula k k k = 1 := by
  have h : ((k : ℚ) / (k : ℚ)) = 1 := by
    rw [div_self]
    exact_mod_cast hk
  simp [f1Formula, h]
  norm_num

/-- The harmonic-mean F1 lies in `(0, 1]` whenever the overlap is positive and
bounded by both span sizes. -/
lemma f1Formula_bounds (o np nl : ℕ) (ho : 0 < o) (hp : o ≤ np) (hl : o ≤ nl) :
    0 < f1Formula o np nl ∧ f1Formula o np nl ≤ 1 := by
  have hp0 : (0 : ℚ) < np := by exact_mod_cast Nat.lt_of_lt_of_le ho hp
  have hl0 : (0 : ℚ) < nl := by exact_mod_cast Nat.lt_of_lt_of_le ho hl
  have ho0 : (0 : ℚ) < o := by exact_mod_cast ho
  set p : ℚ := (o : ℚ) / (np : ℚ) with hpdef
  set r : ℚ := (o : ℚ) / (nl : ℚ) with hrdef
  have hppos : 0 < p := div_pos ho0 hp0
  have hrpos : 0 < r := div_pos ho0 hl0
  have hple : p ≤ 1 := by
    rw [hpdef, div_le_one hp0]
    exact_mod_cast hp
  have hrle : r ≤ 1 := by
    rw [hrdef, div_le_one hl0]
    exact_mod_cast hl
  have hsum : 0 < p + r := by linarith
  constructor
  · exact div_pos (by nlinarith) hsum
  · rw [f1Formula, ← hpdef, ← hrdef, div_le_one hsum]
    nlinarith

/-- The harmonic-mean F1 is symmetric in the two spans. -/
lemma f1Formula_comm (o np nl : ℕ) : f1Formula o np nl = f1Formula o nl np := by
  unfold f1Formula
  ring_nf

/-- Arithmetic overlap is symmetric in the two spans. -/
lemma spanOverlap_comm (ps pe ls le : ℕ) :
    spanOverlap ps pe ls le = spanOverlap ls le ps pe := by
  simp [spanOverlap]
  omega

/-- Overlap size never exceeds the predicted span size. -/
lemma spanOverlap_le_left (ps pe ls le : ℕ) : spanOverlap ps pe ls le ≤ pe + 1 - ps := by
  simp [spanOverlap]
  omega

/-- Overlap size never exceeds the gold span size. -/
lemma spanOverlap_le_right (ps pe ls le : ℕ) : spanOverlap ps pe ls le ≤ le + 1 - ls := by
  simp [spanOverlap]
  omega

/-- A span compared with itself through `squad_f1_single` scores 1 whenever it
is well formed (`start ≤ end`); the no-answer sentinel also scores 1 against
itself. -/
lemma squad_f1_single_self (L : List QACandidate) (idx ps pe : ℕ) (sc : ℚ)
    (h : L.getD idx defaultCandidate = ⟨ps, pe, sc⟩) (hwf : ps ≤ pe) :
    squad_f1_single L (ps, pe) idx = 1 := by
  rw [squad_f1_single_eval L ps pe idx ps pe sc h]
  by_cases h0 : ps + pe = 0 ∨ ps + pe = 0
  · rw [if_pos h0]
    simp
  · rw [if_neg h0]
    have hov : spanOverlap ps pe ps pe = pe + 1 - ps := by
      simp [spanOverlap]
    have hovne : spanOverlap ps pe ps pe ≠ 0 := by
      rw [hov]
      omega
    rw [if_neg hovne, hov, f1Formula_self _ (by omega)]

/-! ### Claims C4 and C10: the single-pair overlap F1 -/

/-- Claim C4: for every predicted span and gold span, if either is the
no-answer sentinel `(0, 0)` the single-pair F1 is 1 exactly when the starts
agree and 0 otherwise; otherwise the F1 is 0 on empty overlap of the inclusive
ranges and the harmonic mean of `overlap/|pred_span|` and `overlap/|label_span|`
on nonempty overlap; identical non-degenerate spans score 1 and disjoint spans
score 0. -/
theorem claim_C4 (ps pe ls le : ℕ) (sc : ℚ) :
    (((ps = 0 ∧ pe = 0) ∨ (ls = 0 ∧ le = 0)) →
      squad_f1_single [⟨ps, pe, sc⟩] (ls, le) 0 = if ps = ls then 1 else 0) ∧
    (¬((ps = 0 ∧ pe = 0) ∨ (ls = 0 ∧ le = 0)) →
      (spanOverlap ps pe ls le = 0 → squad_f1_single [⟨ps, pe, sc⟩] (ls, le) 0 = 0) ∧
      (0 < spanOverlap ps pe ls le →
        squad_f1_single [⟨ps, pe, sc⟩] (ls, le) 0 =
          f1Formula (spanOverlap ps pe ls le) (pe + 1 - ps) (le + 1 - ls))) ∧
    (ps = ls → pe = le → ps ≤ pe → ¬(ps = 0 ∧ pe = 0) →
      squad_f1_single [⟨ps, pe, sc⟩] (ls, le) 0 = 1) ∧
    (pe < ls ∨ le < ps → ¬((ps = 0 ∧ pe = 0) ∨ (ls = 0 ∧ le = 0)) →
      squad_f1_single [⟨ps, pe, sc⟩] (ls, le) 0 = 0) := by
  have heval := squad_f1_single_eval [⟨ps, pe, sc⟩] ls le 0 ps pe sc rfl
  refine ⟨?_, ?_, ?_, ?_⟩
  · intro hsent
    rw [heval, if_pos (by omega)]
  · intro hns
    have hns' : ¬(ps + pe = 0 ∨ ls + le = 0) := by omega
    constructor
    · intro hov
      rw [heval, if_neg hns', if_pos hov]
    · intro hov
      rw [heval, if_neg hns', if_neg (by omega)]
  · intro h1 h2 h3 _
    subst h1
    subst h2
    exact squad_f1_single_self [⟨ps, pe, sc⟩] 0 ps pe sc rfl h3
  · intro hd hns
    have hov : spanOverlap ps pe ls le = 0 := by
      simp only [spanOverlap]
      omega
    rw [heval, if_neg (by omega), if_pos hov]

/-- Witness for claim C4: concrete identical, no-answer and partially
overlapping pairs. -/
theorem claim_C4_witness :
    squad_f1_single [⟨1, 3, 1⟩] (1, 3) 0 = 1 ∧
    squad_f1_single [⟨0, 0, 1⟩] (0, 0) 0 = 1 ∧
    squad_f1_single [⟨1, 4, 1⟩] (3, 6) 0 = f1Formula (spanOverlap 1 4 3 6) 4 4 ∧
    squad_f1_single [⟨1, 2, 1⟩] (4, 6) 0 = 0 := by
  refine ⟨(claim_C4 1 3 1 3 1).2.2.1 rfl rfl (by omega) (by omega), ?_, ?_, ?_⟩
  · have h := (claim_C4 0 0 0 0 1).1 (Or.inl ⟨rfl, rfl⟩)
    simpa using h
  · exact ((claim_C4 1 4 3 6 1).2.1 (by omega)).2 (by decide)
  · exact (claim_C4 1 2 4 6 1).2.2.2 (by omega) (by omega)

/-- Claim C10: for well-formed spans (nonnegative offsets, `start ≤ end`) the
single-pair overlap F1 lies in `[0, 1]` and is symmetric under exchanging the
predicted and gold spans. -/
theorem claim_C10 (ps pe ls le : ℕ) (sc sd : ℚ) (hp : ps ≤ pe) (hl : ls ≤ le) :
    0 ≤ squad_f1_single [⟨ps, pe, sc⟩] (ls, le) 0 ∧
    squad_f1_single [⟨ps, pe, sc⟩] (ls, le) 0 ≤ 1 ∧
    squad_f1_single [⟨ps, pe, sc⟩] (ls, le) 0 = squad_f1_single [⟨ls, le, sd⟩] (ps, pe) 0 := by
  have h1 := squad_f1_single_eval [⟨ps, pe, sc⟩] ls le 0 ps pe sc rfl
  have h2 := squad_f1_single_eval [⟨ls, le, sd⟩] ps pe 0 ls le sd rfl
  have hbounds : 0 ≤ squad_f1_single [⟨ps, pe, sc⟩] (ls, le) 0 ∧
      squad_f1_single [⟨ps, pe, sc⟩] (ls, le) 0 ≤ 1 := by
    rw [h1]
    split_ifs with hs heq hz
    · exact ⟨by norm_num, le_refl 1⟩
    · exact ⟨le_refl 0, by norm_num⟩
    · exact ⟨le_refl 0, by norm_num⟩
    · have hzpos : 0 < spanOverlap ps pe ls le := Nat.pos_of_ne_zero hz
      have hb := f1Formula_bounds (spanOverlap ps pe ls le) (pe + 1 - ps) (le + 1 - ls)
        hzpos (spanOverlap_le_left ps pe ls le) (spanOverlap_le_right ps pe ls le)
      exact ⟨hb.1.le, hb.2⟩
  refine ⟨hbounds.1, hbounds.2, ?_⟩
  rw [h1, h2]
  by_cases hs : ps + pe = 0 ∨ ls + le = 0
  · rw [if_pos hs, if_pos (Or.symm hs)]
    by_cases he : ps = ls
    · rw [if_pos he, if_pos he.symm]
    · rw [if_neg he, if_neg (fun h => he h.symm)]
  · rw [if_neg hs, if_neg (fun h => hs (Or.symm h))]
    rw [spanOverlap_comm ls le ps pe]
    by_cases hz : spanOverlap ps pe ls le = 0
    · rw [if_pos hz, if_pos hz]
    · rw [if_neg hz, if_neg hz, f1Formula_comm]

/-- Witness for claim C10 at a concrete overlapping pair. -/
theorem claim_C10_witness :
    0 ≤ squad_f1_single [⟨1, 4, 1⟩] (3, 6) 0 ∧
    squad_f1_single [⟨1, 4, 1⟩] (3, 6) 0 ≤ 1 ∧
    squad_f1_single [⟨1, 4, 1⟩] (3, 6) 0 = squad_f1_single [⟨3, 6, 2⟩] (1, 4) 0 :=
  claim_C10 1 4 3 6 1 2 (by omega) (by omega)

/-! ### Claim C3: start-only EM compares against gold END offsets -/

/-- Claim C3 (code bug): on a document whose best candidate starts at offset 1
with gold span set `{(1, 3)}`, the source `squad_EM_start` returns 0 because it
collects `label[1]` (the END offsets, here `[3]`), while the behaviour stated
by the claim and by the function's own docstring — comparison against the gold
START offsets — yields 1. -/
theorem claim_C3_code_bug :
    squad_EM_start [[[⟨1, 3, 1⟩]]] [[(1, 3)]] = 0 ∧
    squad_EM_start_specModel [[[⟨1, 3, 1⟩]]] [[(1, 3)]] = 1 := by
  constructor
  · simp [squad_EM_start, bestCand, defaultCandidate]
  · simp [squad_EM_start_specModel, bestCand, defaultCandidate]

/-! ### Claim C7: empty-batch behaviour of the aggregate squad metric -/

/-- Claim C7 counterexample: on the empty batch the document-F1 and top-N
components of `squad` are `np.mean` of an empty list — NaN, modelled `none` —
and in particular not the neutral value 0 the claim asserts for every
component. -/
theorem claim_C7_counterexample :
    (squad [] []).f1 = none ∧ (squad [] []).top_n_accuracy = none ∧
    (squad [] []).f1 ≠ some 0 ∧ (squad [] []).top_n_accuracy ≠ some 0 := by
  refine ⟨rfl, rfl, by decide, by decide⟩

/-- Claim C7 as amended: on the empty batch the explicitly guarded components
EM and mean confidence return the neutral 0, while document-F1 and top-N
accuracy are unguarded `np.mean` calls and return NaN (`none`). -/
theorem claim_C7_amended :
    (squad [] []).EM = 0 ∧ (squad [] []).confidence = 0 ∧
    (squad [] []).f1 = none ∧ (squad [] []).top_n_accuracy = none := by
  refine ⟨rfl, rfl, rfl, rfl⟩

/-! ### Claims C1, C9, C2: the metric dispatcher -/

/-- Claim C1: for every metric name, whatever the built-in implementations and
whatever the registry contents, `compute_metrics` fails with the shape
mismatch error whenever the prediction and label sequences differ in length —
the result does not depend on any metric computation. -/
theorem claim_C1 {V R : Type} (B : Builtins V R)
    (reg : String → Option (List V → List V → R)) (metric : String)
    (preds labels : List V) (h : preds.length ≠ labels.length) :
    compute_metrics B reg metric preds labels = Except.error MetricError.shapeMismatch := by
  unfold compute_metrics
  rw [if_neg h]

/-- Witness for claim C1 at a concrete mismatched call. -/
theorem claim_C1_witness :
    ([0] : List ℕ).length ≠ ([] : List ℕ).length ∧
    compute_metrics demoBuiltins empty_registered_metrics "acc" [0] []
      = Except.error MetricError.shapeMismatch :=
  ⟨by decide, claim_C1 demoBuiltins empty_registered_metrics "acc" [0] [] (by decide)⟩

/-- Claim C9: for equal-length inputs and a metric name outside the built-in
set, `compute_metrics` fails with `KeyError(metric)` when the name is also
absent from the registry, and returns the registered function's result
unchanged when it is present. -/
theorem claim_C9 {V R : Type} (B : Builtins V R)
    (reg : String → Option (List V → List V → R)) (metric : String)
    (preds labels : List V) (f : List V → List V → R)
    (hlen : preds.length = labels.length)
    (hnb : metric ∉ builtin_metric_names) :
    (reg metric = none →
      compute_metrics B reg metric preds labels
        = Except.error (MetricError.unknownMetric metric)) ∧
    (reg metric = some f →
      compute_metrics B reg metric preds labels = Except.ok (f preds labels)) := by
  simp only [builtin_metric_names, List.mem_cons, List.not_mem_nil, or_false, not_or] at hnb
  obtain ⟨h1, h2, h3, h4, h5, h6, h7, h8, h9, h10, h11⟩ := hnb
  constructor <;> intro hr <;>
    simp [compute_metrics, hlen, h1, h2, h3, h4, h5, h6, h7, h8, h9, h10, h11, hr]

/-- Witness for claim C9: the unknown name `custom` raises, and registering it
makes its result pass through unchanged. -/
theorem claim_C9_witness :
    compute_metrics demoBuiltins empty_registered_metrics "custom" [0] [0]
      = Except.error (MetricError.unknownMetric "custom") ∧
    compute_metrics demoBuiltins
      (register_metrics "custom" (fun _ _ => (7 : ℚ)) empty_registered_metrics)
      "custom" [0] [0] = Except.ok 7 :=
  ⟨(claim_C9 demoBuiltins empty_registered_metrics "custom" [0] [0] (fun _ _ => (7 : ℚ))
      rfl (by decide)).1 rfl,
   (claim_C9 demoBuiltins
      (register_metrics "custom" (fun _ _ => (7 : ℚ)) empty_registered_metrics)
      "custom" [0] [0] (fun _ _ => (7 : ℚ)) rfl (by decide)).2 rfl⟩

/-- Claim C2 counterexample: registering a function under the built-in name
`acc` does NOT override the built-in on the compute path — the dispatcher
still returns the built-in result, not the registered function's. -/
theorem claim_C2_counterexample :
    compute_metrics demoBuiltins
      (register_metrics "acc" (fun _ _ => (1 : ℚ)) empty_registered_metrics)
      "acc" [0] [0] = Except.ok (demoBuiltins.acc [0] [0]) ∧
    compute_metrics demoBuiltins
      (register_metrics "acc" (fun _ _ => (1 : ℚ)) empty_registered_metrics)
      "acc" [0] [0] ≠ Except.ok ((fun _ _ => (1 : ℚ)) [0] [0]) := by
  constructor
  · rfl
  · have h : compute_metrics demoBuiltins
        (register_metrics "acc" (fun _ _ => (1 : ℚ)) empty_registered_metrics)
        "acc" [0] [0] = Except.ok (0 : ℚ) := rfl
    rw [h]
    simp

/-- Claim C2 as amended: on the compute path the built-ins take precedence —
for a built-in metric name the registry content is irrelevant (so a registered
function can never override a built-in there) — while on the report path the
registry is consulted first for every output type: a function registered under
the head's output type is resolved and invoked in place of the built-in
report, with the `per_sequence` input reshaping and keyword arguments applied
to it exactly as they would be to a built-in. -/
theorem claim_C2_amended {V R S : Type} (B : Builtins V R)
    (reg1 reg2 : String → Option (List V → List V → R)) (name : String)
    (preds labels : List V) (lib : ReportLib S)
    (rreports : String → Option (ReportFn S)) (head : PredictionHead)
    (rpreds rlabels : List (List ℤ)) (f : ReportFn S)
    (hb : name ∈ builtin_metric_names)
    (hreg : rreports head.ph_output_type = some f) :
    compute_metrics B reg1 name preds labels = compute_metrics B reg2 name preds labels ∧
    resolve_report_fn lib rreports head.ph_output_type = some f ∧
    compute_report_metrics lib rreports head rpreds rlabels
      = Except.ok (
          if head.ph_output_type = "per_sequence" then
            if head.model_type = "multilabel_text_classification" then
              f (ReportData.nested rlabels) (ReportData.nested rpreds)
                (some (4, LabelsArg.ids (List.range head.label_list.length), head.label_list))
            else if head.model_type = "text_similarity" then
              f (ReportData.flat (rlabels.foldl (fun x y => x ++ y) []))
                (ReportData.flat (rpreds.foldl (fun x y => x ++ onehot_row y) []))
                (some (4, LabelsArg.ids (List.range head.label_list.length), head.label_list))
            else
              f (ReportData.nested rlabels) (ReportData.nested rpreds)
                (some (4, LabelsArg.names head.label_list, head.label_list))
          else f (ReportData.nested rlabels) (ReportData.nested rpreds) none) := by
  have hres : resolve_report_fn lib rreports head.ph_output_type = some f := by
    unfold resolve_report_fn
    rw [hreg]
  refine ⟨?_, hres, ?_⟩
  · unfold compute_metrics
    by_cases hl : preds.length = labels.length
    · rw [if_pos hl, if_pos hl]
      simp only [builtin_metric_names, List.mem_cons, List.not_mem_nil, or_false] at hb
      rcases hb with rfl | rfl | rfl | rfl | rfl | rfl | rfl | rfl | rfl | rfl | rfl <;> rfl
    · rw [if_neg hl, if_neg hl]
  · unfold compute_report_metrics
    rw [hres]
    split_ifs <;> rfl

/-- Witness for claim C2 as amended: concrete registries for the built-in
name `acc`, a registered `per_token` report override, and a registered
`per_sequence` report override that receives the reshaped call. -/
theorem claim_C2_amended_witness :
    compute_metrics demoBuiltins
      (register_metrics "acc" (fun _ _ => (1 : ℚ)) empty_registered_metrics)
      "acc" [0] [0] = compute_metrics demoBuiltins empty_registered_metrics "acc" [0] [0] ∧
    compute_report_metrics demoReportLib demoRegisteredReports ⟨"per_token", "m", []⟩ [] []
      = Except.ok (demoCustomReport (ReportData.nested []) (ReportData.nested []) none) ∧
    compute_report_metrics demoReportLib demoPerSequenceReports
      ⟨"per_sequence", "m", ["a"]⟩ [] []
      = Except.ok (demoCustomReport (ReportData.nested []) (ReportData.nested [])
          (some (4, LabelsArg.names ["a"], ["a"]))) := by
  refine ⟨?_, ?_, ?_⟩
  · exact (claim_C2_amended demoBuiltins
      (register_metrics "acc" (fun _ _ => (1 : ℚ)) empty_registered_metrics)
      empty_registered_metrics "acc" [0] [0] demoReportLib demoRegisteredReports
      ⟨"per_token", "m", []⟩ [] [] demoCustomReport (by decide) rfl).1
  · have h := (claim_C2_amended demoBuiltins empty_registered_metrics
      empty_registered_metrics "acc" [0] [0] demoReportLib demoRegisteredReports
      ⟨"per_token", "m", []⟩ [] [] demoCustomReport (by decide) rfl).2.2
    rw [if_neg (by decide)] at h
    exact h
  · have h := (claim_C2_amended demoBuiltins empty_registered_metrics
      empty_registered_metrics "acc" [0] [0] demoReportLib demoPerSequenceReports
      ⟨"per_sequence", "m", ["a"]⟩ [] [] demoCustomReport (by decide) rfl).2.2
    rw [if_pos rfl, if_neg (by decide), if_neg (by decide)] at h
    exact h

/-! ### Claim C5: top-N accuracy versus exact match -/

/-- Every member of a list bounds its `foldr max` from below. -/
lemma le_foldr_max (l : List ℚ) (b a : ℚ) (h : a ∈ l) : a ≤ l.foldr max b := by
  induction l with
  | nil => simp at h
  | cons x xs ih =>
    rcases List.mem_cons.mp h with rfl | hx
    · exact le_max_left _ _
    · exact le_trans (ih hx) (le_max_right _ _)

/-- Summing an indicator map counts the satisfying elements. -/
lemma sum_map_ite_one_zero {α : Type} (l : List α) (p : α → Bool) :
    (l.map fun x => if p x then (1 : ℚ) else 0).sum = (l.countP p : ℚ) := by
  induction l with
  | nil => simp
  | cons x xs ih =>
    simp only [List.map_cons, List.sum_cons, List.countP_cons, ih]
    by_cases hx : p x <;> simp [hx] <;> push_cast <;> ring

/-- Claim C5 counterexample: a batch whose single document's best candidate is
the inverted span `(5, 3)` and whose gold set is exactly `{(5, 3)}`.  Exact
match counts it (literal tuple membership) but its overlap is empty, so no
candidate produces a nonzero F1: top-N accuracy is 0 while EM is 1, refuting
`top_n_accuracy ≥ EM` over arbitrary aligned batches. -/
theorem claim_C5_counterexample :
    squad_EM [[[⟨5, 3, 1⟩]]] [[(5, 3)]] = 1 ∧
    top_n_accuracy [[[⟨5, 3, 1⟩]]] [[(5, 3)]] = some 0 ∧
    ¬ squad_EM [[[⟨5, 3, 1⟩]]] [[(5, 3)]] ≤ 0 := by
  have h1 : squad_EM [[[⟨5, 3, 1⟩]]] [[(5, 3)]] = 1 := by
    simp [squad_EM, bestCand, defaultCandidate]
  have h2 : squad_f1_single [⟨5, 3, 1⟩] (5, 3) 0 = 0 := by
    have he := squad_f1_single_eval [⟨5, 3, 1⟩] 5 3 0 5 3 1 rfl
    rw [if_neg (by omega), if_pos (by simp [spanOverlap])] at he
    exact he
  refine ⟨h1, ?_, ?_⟩
  · simp [top_n_accuracy, top_n_hit, npMean, h2]
  · rw [h1]
    norm_num

/-- Claim C5 as amended: for a non-empty aligned batch in which every document
has at least one ranked candidate and at least one gold span, and every gold
span is well formed (`start ≤ end`), top-N accuracy is at least document-level
exact match. -/
theorem claim_C5_amended (preds : List QAPred) (labels : List (List (ℕ × ℕ))) (t : ℚ)
    (hne : preds ≠ []) (hlen : preds.length = labels.length)
    (hcand : ∀ p ∈ preds, 1 ≤ (p.getD 0 []).length)
    (hlabne : ∀ ls ∈ labels, ls ≠ [])
    (hlabwf : ∀ ls ∈ labels, ∀ s ∈ ls, s.1 ≤ s.2)
    (ht : top_n_accuracy preds labels = some t) :
    squad_EM preds labels ≤ t := by
  have hpoint : ∀ pl ∈ preds.zip labels,
      decide (((bestCand pl.1).offset_answer_start,
        (bestCand pl.1).offset_answer_end) ∈ pl.2) = true →
      top_n_hit pl.1 pl.2 = true := by
    intro pl hmem hc
    have hp : pl.1 ∈ preds := (List.of_mem_zip hmem).1
    have hlmem : pl.2 ∈ labels := (List.of_mem_zip hmem).2
    rw [decide_eq_true_eq] at hc
    have hwf := hlabwf pl.2 hlmem _ hc
    have hf1 : squad_f1_single (pl.1.getD 0 [])
        ((bestCand pl.1).offset_answer_start, (bestCand pl.1).offset_answer_end) 0 = 1 := by
      exact squad_f1_single_self (pl.1.getD 0 []) 0 _ _ (bestCand pl.1).score rfl hwf
    unfold top_n_hit
    rw [List.any_eq_true]
    refine ⟨0, List.mem_range.mpr (by have := hcand pl.1 hp; omega), ?_⟩
    rw [decide_eq_true_eq]
    have hmemf1 : squad_f1_single (pl.1.getD 0 [])
        ((bestCand pl.1).offset_answer_start, (bestCand pl.1).offset_answer_end) 0 ∈
        (pl.2.map fun label => squad_f1_single (pl.1.getD 0 []) label 0) := by
      exact List.mem_map_of_mem _ hc
    have hge := le_foldr_max _ 0 _ hmemf1
    rw [hf1] at hge
    intro h0
    rw [h0] at hge
    norm_num at hge
  unfold top_n_accuracy npMean at ht
  have hzlen : (preds.zip labels).length = preds.length := by
    rw [List.length_zip, hlen, min_self]
  have hmapne : ¬ ((preds.zip labels).map fun pl =>
      if top_n_hit pl.1 pl.2 then (1 : ℚ) else 0).isEmpty = true := by
    rw [List.isEmpty_iff, List.map_eq_nil, ← List.length_eq_zero, hzlen,
      List.length_eq_zero]
    exact hne
  rw [if_neg hmapne] at ht
  have hteq : t = ((preds.zip labels).countP fun pl => top_n_hit pl.1 pl.2 : ℚ)
      / (preds.length : ℚ) := by
    have := Option.some.inj ht
    rw [← this, sum_map_ite_one_zero, List.length_map, hzlen]
  have hcount : ((preds.zip labels).countP fun pl =>
        decide (((bestCand pl.1).offset_answer_start,
          (bestCand pl.1).offset_answer_end) ∈ pl.2))
      ≤ (preds.zip labels).countP fun pl => top_n_hit pl.1 pl.2 :=
    List.countP_mono_left hpoint
  unfold squad_EM
  have hn0 : preds.length ≠ 0 := fun h => hne (List.length_eq_zero.mp h)
  rw [if_neg hn0, hteq]
  have hnpos : (0 : ℚ) < (preds.length : ℚ) := by
    exact_mod_cast Nat.pos_of_ne_zero hn0
  rw [div_le_div_right hnpos]
  exact_mod_cast hcount

/-- Witness for claim C5 as amended at a concrete single-document batch. -/
theorem claim_C5_witness : squad_EM [[[⟨1, 3, 1⟩]]] [[(1, 3)]] ≤ 1 := by
  have ht : top_n_accuracy [[[⟨1, 3, 1⟩]]] [[(1, 3)]] = some 1 := by
    have h1 : squad_f1_single [⟨1, 3, 1⟩] (1, 3) 0 = 1 :=
      squad_f1_single_self [⟨1, 3, 1⟩] 0 1 3 1 rfl (by omega)
    simp [top_n_accuracy, top_n_hit, npMean, h1]
  exact claim_C5_amended [[[⟨1, 3, 1⟩]]] [[(1, 3)]] 1 (by simp) rfl
    (by intro p hp; simp at hp; subst hp; simp)
    (by intro ls hls; simp at hls; subst hls; simp)
    (by intro ls hls s hs; simp at hls; subst hls; simp at hs; subst hs; omega) ht

/-! ### Claim C6: calibration binning -/

/-- Incrementing one in-range cell of a list of counters raises the total by
one. -/
lemma sum_set_getD (l : List ℕ) (i : ℕ) (h : i < l.length) :
    (l.set i (l.getD i 0 + 1)).sum = l.sum + 1 := by
  induction l generalizing i with
  | nil => simp at h
  | cons x xs ih =>
    cases i with
    | zero => simp [List.getD_cons_zero]; omega
    | succ j =>
      simp only [List.set_cons_succ, List.getD_cons_succ, List.sum_cons]
      have := ih j (by simpa using h)
      omega

/-- Folding the per-document increment over a batch adds the batch size to the
total of the counters, provided every bin index is in range. -/
lemma sum_foldl_bins {α : Type} (f : α → ℕ) :
    ∀ (docs : List α) (acc : List ℕ), (∀ d ∈ docs, f d < acc.length) →
      (docs.foldl (fun a d => a.set (f d) (a.getD (f d) 0 + 1)) acc).sum
        = acc.sum + docs.length := by
  intro docs
  induction docs with
  | nil =>
    intro acc _
    simp
  | cons d ds ih =>
    intro acc h
    simp only [List.foldl_cons, List.length_cons]
    rw [ih (acc.set (f d) (acc.getD (f d) 0 + 1))
        (by intro x hx; rw [List.length_set]; exact h x (List.mem_cons_of_mem _ hx))]
    rw [sum_set_getD acc (f d) (h d (List.mem_cons_self _ _))]
    omega

/-- A score of exactly 1 is clamped to 0.9999 and lands in bin 9. -/
lemma binIndex_one : binIndex 1 = 9 := by
  unfold binIndex
  rw [if_pos rfl]
  norm_num
  rfl

/-- For scores in `[0, 1]` the bin index stays below 10. -/
lemma binIndex_lt_ten (s : ℚ) (h0 : 0 ≤ s) (h1 : s ≤ 1) : binIndex s < 10 := by
  by_cases hs : s = 1
  · rw [hs, binIndex_one]
    omega
  · unfold binIndex
    rw [if_neg hs]
    have hlt : s < 1 := lt_of_le_of_ne h1 hs
    have hfl : ⌊s * 10⌋ < 10 := Int.floor_lt.mpr (by push_cast; linarith)
    have hf0 : 0 ≤ ⌊s * 10⌋ := Int.floor_nonneg.mpr (by linarith)
    omega

/-- Away from the clamped score 1, the bin index is exactly `⌊score · 10⌋`. -/
lemma binIndex_eq_floor (s : ℚ) (hs : s ≠ 1) : binIndex s = (⌊s * 10⌋).toNat := by
  unfold binIndex
  rw [if_neg hs]

/-- For scores in `[0, 1]`, bin 9 is hit exactly on `[0.9, 1]`. -/
lemma binIndex_nine_iff (s : ℚ) (h0 : 0 ≤ s) (h1 : s ≤ 1) :
    binIndex s = 9 ↔ 9 / 10 ≤ s := by
  by_cases hs : s = 1
  · rw [hs, binIndex_one]
    norm_num
  · rw [binIndex_eq_floor s hs]
    have hlt : s < 1 := lt_of_le_of_ne h1 hs
    have hf0 : 0 ≤ ⌊s * 10⌋ := Int.floor_nonneg.mpr (by linarith)
    constructor
    · intro h9
      have hfe : ⌊s * 10⌋ = 9 := by omega
      have := (Int.floor_eq_iff.mp hfe).1
      push_cast at this
      linarith
    · intro hge
      have hfe : ⌊s * 10⌋ = 9 := by
        rw [Int.floor_eq_iff]
        constructor
        · push_cast
          linarith
        · push_cast
          linarith
      omega

/-- Claim C6: for a batch whose best-candidate scores lie in `[0, 1]`, the
per-bin counts sum to the number of documents; documents with score below 1
are assigned to bin `⌊score · 10⌋`; a score of exactly 1 is clamped into bin
9; and bin 9 is assigned exactly the documents with score in `[0.9, 1]`. -/
theorem claim_C6 (preds : List QAPred) (labels : List (List (ℕ × ℕ)))
    (hlen : preds.length = labels.length)
    (hs : ∀ p ∈ preds, 0 ≤ (bestCand p).score ∧ (bestCand p).score ≤ 1) :
    (count_per_bin preds labels).sum = preds.length ∧
    (∀ p ∈ preds, (bestCand p).score < 1 →
      binIndex (bestCand p).score = (⌊(bestCand p).score * 10⌋).toNat) ∧
    (∀ p ∈ preds, (bestCand p).score = 1 → binIndex (bestCand p).score = 9) ∧
    (∀ p ∈ preds, (binIndex (bestCand p).score = 9 ↔ 9 / 10 ≤ (bestCand p).score)) := by
  refine ⟨?_, ?_, ?_, ?_⟩
  · unfold count_per_bin
    rw [sum_foldl_bins (fun pl => binIndex (bestCand pl.1).score) (preds.zip labels)
        (List.replicate 10 0)
        (by
          intro pl hpl
          rw [List.length_replicate]
          have hp := (List.of_mem_zip hpl).1
          exact binIndex_lt_ten _ (hs pl.1 hp).1 (hs pl.1 hp).2)]
    simp [List.length_zip, hlen]
  · intro p _ hlt1
    exact binIndex_eq_floor _ (ne_of_lt hlt1)
  · intro p _ h1
    rw [h1, binIndex_one]
  · intro p hp
    exact binIndex_nine_iff _ (hs p hp).1 (hs p hp).2

/-- Witness for claim C6 at a concrete three-document batch with scores 1,
1/2 and 19/20. -/
theorem claim_C6_witness :
    (count_per_bin [[[⟨1, 3, 1⟩]], [[⟨0, 0, 1/2⟩]], [[⟨2, 2, 19/20⟩]]]
      [[(1, 3)], [(0, 0)], [(2, 2)]]).sum = 3 := by
  have h := (claim_C6 [[[⟨1, 3, 1⟩]], [[⟨0, 0, 1/2⟩]], [[⟨2, 2, 19/20⟩]]]
    [[(1, 3)], [(0, 0)], [(2, 2)]] rfl (by
      intro p hp
      simp only [List.mem_cons, List.not_mem_nil, or_false] at hp
      rcases hp with rfl | rfl | rfl <;> norm_num [bestCand, defaultCandidate])).1
  simpa using h

/-! ### Claim C8: average gold rank for text similarity -/

/-- Flattening per-query singleton position lists accumulates exactly the list
of gold indices. -/
lemma foldl_append_singles (f : List ℕ → List ℕ) {labels : List (List ℕ)}
    {gold : List ℕ} (h : List.Forall₂ (fun y g => f y = [g]) labels gold) :
    ∀ acc, labels.foldl (fun x y => x ++ f y) acc = acc ++ gold := by
  induction h with
  | nil =>
    intro acc
    simp
  | cons hrel _ ih =>
    intro acc
    simp only [List.foldl_cons, hrel]
    rw [ih]
    simp

/-- Pointwise access to a `Forall₂` relation through `getD`. -/
lemma forall₂_getD {α β : Type} {r : α → β → Prop} (d₁ : α) (d₂ : β)
    {l₁ : List α} {l₂ : List β} (h : List.Forall₂ r l₁ l₂) :
    ∀ j, j < l₁.length → r (l₁.getD j d₁) (l₂.getD j d₂) := by
  induction h with
  | nil =>
    intro j hj
    simp at hj
  | cons hrel hrest ih =>
    intro j hj
    cases j with
    | zero => simpa using hrel
    | succ k =>
      simp only [List.getD_cons_succ]
      exact ih k (by simpa using hj)

/-- Componentwise `getD` on a zip of lists, inside the common range. -/
lemma zip_getD : ∀ (l₁ l₂ : List ℕ) (j : ℕ), j < l₁.length → j < l₂.length →
    (l₁.zip l₂).getD j (0, 0) = (l₁.getD j 0, l₂.getD j 0) := by
  intro l₁
  induction l₁ with
  | nil =>
    intro l₂ j hj _
    simp at hj
  | cons x xs ih =>
    intro l₂ j hj₁ hj₂
    cases l₂ with
    | nil => simp at hj₂
    | cons y ys =>
      cases j with
      | zero => simp
      | succ k =>
        simp only [List.zip_cons_cons, List.getD_cons_succ]
        exact ih ys k (by simpa using hj₁) (by simpa using hj₂)

/-- The rank-accumulation loop returns the sum of the per-query ranks when
each gold index resolves to a unique position in its query's ranking. -/
lemma ranksLoop_eq_sum (preds : List (List ℕ)) :
    ∀ (gs rs : List ℕ) (k : ℕ), gs.length = rs.length →
      (∀ j, j < gs.length → k + j < preds.length ∧
        itemOfMatches (matchIdx (preds.getD (k + j) []) (gs.getD j 0))
          = some (rs.getD j 0)) →
      ranksLoop preds k gs = some rs.sum := by
  intro gs
  induction gs with
  | nil =>
    intro rs k hlen _
    cases rs with
    | nil => simp [ranksLoop]
    | cons r rs' => simp at hlen
  | cons g gs' ih =>
    intro rs k hlen hj
    cases rs with
    | nil => simp at hlen
    | cons r rs' =>
      have h0 := hj 0 (by simp)
      simp only [Nat.add_zero, List.getD_cons_zero] at h0
      have hrec : ranksLoop preds (k + 1) gs' = some rs'.sum := by
        apply ih rs' (k + 1) (by simpa using hlen)
        intro j hjlt
        have hgen := hj (j + 1) (by simp only [List.length_cons]; omega)
        simp only [List.getD_cons_succ] at hgen
        have hidx : k + (j + 1) = k + 1 + j := by omega
        rw [hidx] at hgen
        exact hgen
      unfold ranksLoop
      rw [if_pos h0.1, h0.2, hrec]
      simp

/-- Claim C8: when every query has exactly one gold-positive passage and that
passage occurs exactly once in the query's predicted ranking, the average-rank
metric returns the mean of the 0-based gold positions, and in particular 0
when every gold passage is ranked first. -/
theorem claim_C8 (preds labels : List (List ℕ)) (gold ranks : List ℕ)
    (hne : preds ≠ [])
    (h1 : List.Forall₂ (fun y g => nonzeroOne y = [g]) labels gold)
    (h2 : List.Forall₂ (fun p gr => matchIdx p gr.1 = [gr.2]) preds (gold.zip ranks))
    (hgr : gold.length = ranks.length) :
    text_similarity_avg_ranks preds labels
      = some ((ranks.sum : ℚ) / (preds.length : ℚ)) ∧
    ((∀ r ∈ ranks, r = 0) → text_similarity_avg_ranks preds labels = some 0) := by
  have hlp : preds.length = gold.length := by
    have hh := h2.length_eq
    rw [List.length_zip, ← hgr, min_self] at hh
    exact hh
  have hflat : labels.foldl (fun x y => x ++ nonzeroOne y) [] = gold := by
    simpa using foldl_append_singles nonzeroOne h1 []
  have hloop : ranksLoop preds 0 gold = some ranks.sum := by
    apply ranksLoop_eq_sum preds gold ranks 0 hgr
    intro j hj
    have hjp : j < preds.length := by omega
    constructor
    · omega
    · have hrel := forall₂_getD [] (0, 0) h2 j hjp
      rw [zip_getD gold ranks j hj (by omega)] at hrel
      simp only [Nat.zero_add]
      rw [hrel]
      rfl
  have hmain : text_similarity_avg_ranks preds labels
      = some ((ranks.sum : ℚ) / (preds.length : ℚ)) := by
    unfold text_similarity_avg_ranks
    rw [hflat]
    simp only [hloop]
    rw [if_neg (fun h => hne (List.length_eq_zero.mp h))]
  refine ⟨hmain, ?_⟩
  intro hz
  rw [hmain, List.sum_eq_zero hz]
  norm_num

/-- Witness for claim C8: two queries whose gold passages are both ranked
first give average rank 0. -/
theorem claim_C8_witness :
    text_similarity_avg_ranks [[0, 1], [1, 0]] [[1, 0], [0, 1]] = some 0 := by
  have h := claim_C8 [[0, 1], [1, 0]] [[1, 0], [0, 1]] [0, 1] [0, 0] (by simp)
    (List.Forall₂.cons (by decide) (List.Forall₂.cons (by decide) List.Forall₂.nil))
    (List.Forall₂.cons (by decide) (List.Forall₂.cons (by decide) List.Forall₂.nil))
    rfl
  exact h.2 (by decide)
